import Mathlib

/-!
Verification of the memebot message-interpretation pipeline and
content-addressed file repository.  Go strings are embedded as lists of
characters; Go maps as association lists; the filesystem and the regexp
engine as explicit oracles passed to the embedded functions.
-/

namespace Memebot

/-- Go strings, embedded as lists of characters. -/
abbrev GoStr := List Char

/-- Embedding of Go `unicode.IsSpace` (the White_Space property). -/
def isSpaceGo (c : Char) : Bool :=
  c.toNat = 0x20 || c.toNat = 0x09 || c.toNat = 0x0A || c.toNat = 0x0B ||
  c.toNat = 0x0C || c.toNat = 0x0D || c.toNat = 0x85 || c.toNat = 0xA0 ||
  c.toNat = 0x1680 || (0x2000 ≤ c.toNat && c.toNat ≤ 0x200A) ||
  c.toNat = 0x2028 || c.toNat = 0x2029 || c.toNat = 0x202F ||
  c.toNat = 0x205F || c.toNat = 0x3000

/-- Embedding of Go `strings.ToLower` (character-wise lowercasing). -/
def toLowerGo (s : GoStr) : GoStr := s.map Char.toLower

/-- Embedding of Go `strings.HasPrefix`. -/
def hasPrefixGo (s pre : GoStr) : Bool := pre.isPrefixOf s

/-- Embedding of Go `strings.TrimPrefix`. -/
def trimPrefixGo (s pre : GoStr) : GoStr :=
  if hasPrefixGo s pre then s.drop pre.length else s

/-- Embedding of Go `strings.TrimSuffix`. -/
def trimSuffixGo (s suf : GoStr) : GoStr :=
  if suf.isSuffixOf s then s.take (s.length - suf.length) else s

/-- Embedding of Go `strings.IndexFunc`: index of the first character
satisfying `f`, or `-1` when there is none. -/
def indexFunc (s : GoStr) (f : Char → Bool) : Int :=
  match s.findIdx? f with
  | some i => (i : Int)
  | none => -1

/-- Embedding of Go `strings.TrimSpace`: trim `unicode.IsSpace` characters
from both ends. -/
def trimSpaceGo (s : GoStr) : GoStr :=
  ((s.dropWhile isSpaceGo).reverse.dropWhile isSpaceGo).reverse

/-- Embedding of Go `strings.Split` on a single separator character
(`strings.Split(s, ",")` keeps empty segments). -/
def splitGo (s : GoStr) (sep : Char) : List GoStr := s.splitOn sep

/-! ## message_parsers.go -/

/-- Embedding of `DefaultHelpParser`: `strings.ToLower(msg) == "help"`. -/
def DefaultHelpParser (msg : GoStr) : Bool :=
  toLowerGo msg = "help".toList

/-- Embedding of `SlackPrefixMentionParser.ParseMention` specialised to one
candidate prefix: `none` when the prefix does not match, otherwise the
clean message.  Mirrors the loop body at message_parsers.go:86-100. -/
def parseMentionWith (pre msg : GoStr) : Option GoStr :=
  if hasPrefixGo msg pre then
    let cleanMsg := trimPrefixGo msg pre
    match cleanMsg.findIdx? isSpaceGo with
    | none =>
      -- `i < 0` branch: the named return values are `(cleanMsg, true)`.
      some cleanMsg
    | some i => some (trimSpaceGo (cleanMsg.drop i))
  else none

/-- Embedding of `SlackPrefixMentionParser.ParseMention`: try the display
name first, then the `<@id>` token; on no match return the message
unchanged with `mentioned = false`. -/
def ParseMention (mentionedUserName userId msg : GoStr) : GoStr × Bool :=
  match parseMentionWith mentionedUserName msg with
  | some c => (c, true)
  | none =>
    match parseMentionWith ("<@".toList ++ userId ++ ">".toList) msg with
    | some c => (c, true)
    | none => (msg, false)

/-- Embedding of `RegexpKeywordParser.ParseKeyword`, taking the result of
`Regexp.FindStringSubmatch` as an oracle input (`[]` when the pattern did
not match, otherwise the full match followed by the capture groups). -/
def ParseKeyword (submatches : List GoStr) : GoStr × Bool :=
  if submatches.length < 2 then ([], false)
  else
    match (submatches.drop 1).find? (fun m => m ≠ []) with
    | some m => (m, true)
    | none => ([], false)

/-- Embedding of `MessageParser.ParseMessage` with the default mention and
help parsers (as installed by `Validate`), the keyword parser supplied as
an oracle function.  Returns `(keyword, mentioned, help)`. -/
def ParseMessage (kwParse : GoStr → GoStr × Bool) (mentionedUser userId msg : GoStr) :
    GoStr × Bool × Bool :=
  let res := ParseMention mentionedUser userId msg
  let msg2 := res.1
  let mentioned := res.2
  if DefaultHelpParser msg2 && mentioned then
    ([], mentioned, true)
  else
    match kwParse msg2 with
    | (kw, true) => (kw, mentioned, false)
    | (_, false) => ([], mentioned, false)

/-! ## crypto/sha1 and encoding/base64 (Go standard library, as used by
`generateSha1Base64Hash`) -/

/-- Truncation to a 32-bit machine word. -/
def w32 (n : Nat) : Nat := n % 4294967296

/-- 32-bit rotate left by `b` (for `n < 2^32`). -/
def rotl32 (b n : Nat) : Nat := w32 (n * 2 ^ b + n / 2 ^ (32 - b))

/-- SHA-1 round function `f` for round `i`. -/
def sha1F (i b c d : Nat) : Nat :=
  if i < 20 then (b &&& c) ||| ((4294967295 - b) &&& d)
  else if i < 40 then b ^^^ c ^^^ d
  else if i < 60 then (b &&& c) ||| (b &&& d) ||| (c &&& d)
  else b ^^^ c ^^^ d

/-- SHA-1 round constant `k` for round `i`. -/
def sha1K (i : Nat) : Nat :=
  if i < 20 then 0x5A827999
  else if i < 40 then 0x6ED9EBA1
  else if i < 60 then 0x8F1BBCDC
  else 0xCA62C1D6

/-- Big-endian byte serialisation of `n` on `k` bytes. -/
def beBytes (k n : Nat) : List Nat :=
  (List.range k).map (fun i => n / 2 ^ (8 * (k - 1 - i)) % 256)

/-- SHA-1 message padding: append `0x80`, zeros to 56 mod 64, and the
64-bit big-endian bit length. -/
def sha1pad (msg : List Nat) : List Nat :=
  msg ++ [0x80] ++ List.replicate ((55 + 64 - msg.length % 64) % 64) 0 ++
    beBytes 8 (8 * msg.length)

/-- Group bytes into big-endian 32-bit words. -/
def toWords32 : List Nat → List Nat
  | b0 :: b1 :: b2 :: b3 :: rest =>
    (b0 * 16777216 + b1 * 65536 + b2 * 256 + b3) :: toWords32 rest
  | _ => []

/-- Extend the 16 block words to the 80 schedule words. -/
def sha1Extend (ws : List Nat) : List Nat :=
  (List.range 64).foldl
    (fun acc i =>
      acc ++ [rotl32 1 (acc.getD (i + 13) 0 ^^^ acc.getD (i + 8) 0 ^^^
        acc.getD (i + 2) 0 ^^^ acc.getD i 0)])
    ws

/-- The five 32-bit words of SHA-1 chaining state. -/
structure Sha1H where
  a : Nat
  b : Nat
  c : Nat
  d : Nat
  e : Nat
deriving DecidableEq

/-- SHA-1 initial chaining state. -/
def sha1Init : Sha1H :=
  ⟨0x67452301, 0xEFCDAB89, 0x98BADCFE, 0x10325476, 0xC3D2E1F0⟩

/-- The 80 SHA-1 rounds over one schedule. -/
def sha1Rounds (ws : List Nat) (h : Sha1H) : Sha1H :=
  (List.range 80).foldl
    (fun st i =>
      let temp := w32 (rotl32 5 st.a + sha1F i st.b st.c st.d + st.e +
        sha1K i + ws.getD i 0)
      ⟨temp, st.a, rotl32 30 st.b, st.c, st.d⟩)
    h

/-- Compress one 64-byte block into the chaining state. -/
def sha1Block (h : Sha1H) (block : List Nat) : Sha1H :=
  let r := sha1Rounds (sha1Extend (toWords32 block)) h
  ⟨w32 (h.a + r.a), w32 (h.b + r.b), w32 (h.c + r.c), w32 (h.d + r.d),
    w32 (h.e + r.e)⟩

/-- Structural worker for `chunks64`: the fuel bounds the number of chunks
(one unit of fuel per non-empty step, each of which consumes at least one
byte, so `l.length` fuel always suffices). -/
def chunks64Go : Nat → List Nat → List (List Nat)
  | 0, _ => []
  | _ + 1, [] => []
  | fuel + 1, b :: rest => (b :: rest).take 64 :: chunks64Go fuel ((b :: rest).drop 64)

/-- Split a byte list into 64-byte chunks. -/
def chunks64 (l : List Nat) : List (List Nat) := chunks64Go l.length l

/-- SHA-1 digest (20 bytes) of a byte string. -/
def sha1 (msg : List Nat) : List Nat :=
  let hf := (chunks64 (sha1pad msg)).foldl sha1Block sha1Init
  beBytes 4 hf.a ++ beBytes 4 hf.b ++ beBytes 4 hf.c ++ beBytes 4 hf.d ++
    beBytes 4 hf.e

/-- The base64url alphabet (Go `base64.URLEncoding`). -/
def b64Alphabet : List Char :=
  "ABCDEFGHIJKLMNOPQRSTUVWXYZabcdefghijklmnopqrstuvwxyz0123456789-_".toList

/-- Character for a 6-bit value. -/
def b64Char (i : Nat) : Char := b64Alphabet.getD i 'A'

/-- base64url encoding with padding (Go `base64.NewEncoder` with
`base64.URLEncoding`, closed after writing). -/
def base64urlEncode : List Nat → GoStr
  | b0 :: b1 :: b2 :: rest =>
    let n := b0 * 65536 + b1 * 256 + b2
    b64Char (n / 262144) :: b64Char (n / 4096 % 64) :: b64Char (n / 64 % 64) ::
      b64Char (n % 64) :: base64urlEncode rest
  | [b0, b1] =>
    let n := b0 * 65536 + b1 * 256
    [b64Char (n / 262144), b64Char (n / 4096 % 64), b64Char (n / 64 % 64), '=']
  | [b0] =>
    let n := b0 * 65536
    [b64Char (n / 262144), b64Char (n / 4096 % 64), '=', '=']
  | [] => []

/-- Embedding of `generateSha1Base64Hash`: SHA-1 digest of the content,
base64url-encoded.  The `io.Copy` error path cannot occur once the byte
content is given, so the function is total here. -/
def generateSha1Base64Hash (content : List Nat) : GoStr :=
  base64urlEncode (sha1 content)

/-! ## memepository: filesystem model, file memes, index, single-flight load -/

/-- Directory-entry metadata, as exposed by `os.FileInfo`. -/
structure FileInfo where
  name : GoStr
  modTime : Nat
  size : Int
  isRegular : Bool
deriving DecidableEq

/-- Model of the injectable `FileSystem` interface: the outcome of
`ReadDirEntries` on the repository path, and of `Open` per file path
(error message, or the full byte content subsequently read). -/
structure FS where
  readDirEntries : Except GoStr (List FileInfo)
  openFile : GoStr → Except GoStr (List Nat)

/-- `FileServingMemepositoryConfig` (the router is not modelled). -/
structure Config where
  path : GoStr
  imageExtensions : List GoStr
deriving DecidableEq

/-- The extension normalisation done by `NewFileServingMemepository`:
`config.ImageExtensions.Apply(strings.ToLower)`. -/
def normalizeExtensions (c : Config) : Config :=
  { c with imageExtensions := c.imageExtensions.map toLowerGo }

/-- Embedding of Go `filepath.Ext`: the suffix starting at the final dot,
or empty when the name has no dot. -/
def fileExt (name : GoStr) : GoStr :=
  if '.' ∈ name then '.' :: (name.reverse.takeWhile (fun c => c ≠ '.')).reverse
  else []

/-- Embedding of `getNormalizedExtensionWithoutDot`. -/
def getNormalizedExtensionWithoutDot (name : GoStr) : GoStr :=
  toLowerGo (trimPrefixGo (fileExt name) ".".toList)

/-- Embedding of `parseKeywords`: strip the extension, then split the rest
on `,` (Go `strings.Split` keeps every segment as-is). -/
def parseKeywords (name : GoStr) : List GoStr :=
  splitGo (trimSuffixGo name (fileExt name)) ','

/-- Embedding of `FileServingMemepository.isImageFile`. -/
def isImageFile (cfg : Config) (f : FileInfo) : Bool :=
  f.isRegular && cfg.imageExtensions.contains (getNormalizedExtensionWithoutDot f.name)

/-- Embedding of `filepath.Join` for a directory and an entry name
(path cleaning is irrelevant for entry names without separators). -/
def filepathJoin (dir name : GoStr) : GoStr := dir ++ "/".toList ++ name

/-- Embedding of `FileMeme` (the `owner` back-pointer is replaced by the
stored path; it only serves `Open` and `URL`). -/
structure FileMeme where
  id : GoStr
  path : GoStr
  lastModified : Nat
  size : Int
  keywords : List GoStr
deriving DecidableEq

/-- Embedding of `generateHashForFile`: open the file and hash it. -/
def generateHashForFile (fs : FS) (name : GoStr) : Except GoStr GoStr :=
  match fs.openFile name with
  | .error e => .error e
  | .ok content => .ok (generateSha1Base64Hash content)

/-- Embedding of `newFileMeme`: hash the file, append `"." + extension`
to form the id, and derive the keywords from the filename. -/
def newFileMeme (file : FileInfo) (cfg : Config) (fs : FS) : Except GoStr FileMeme :=
  let path := filepathJoin cfg.path file.name
  match generateHashForFile fs path with
  | .error e => .error e
  | .ok hash =>
    .ok { id := hash ++ ".".toList ++ getNormalizedExtensionWithoutDot file.name
          path := path
          lastModified := file.modTime
          size := file.size
          keywords := parseKeywords file.name }

/-! ## memes.go: the keyword index -/

/-- Embedding of `normalizeKeyword`. -/
def normalizeKeyword (kw : GoStr) : GoStr := toLowerGo kw

/-- Embedding of `MemeIndex`: keyword buckets plus the list of all memes. -/
structure MemeIndex where
  byKeyword : List (GoStr × List FileMeme)
  all : List FileMeme
deriving DecidableEq

/-- Embedding of `NewMemeIndex`. -/
def NewMemeIndex : MemeIndex := ⟨[], []⟩

/-- Append `v` to the bucket of key `k` (Go map append). -/
def bucketAdd (m : List (GoStr × List FileMeme)) (k : GoStr) (v : FileMeme) :
    List (GoStr × List FileMeme) :=
  match m with
  | [] => [(k, [v])]
  | (k2, vs) :: rest =>
    if k2 = k then (k2, vs ++ [v]) :: rest else (k2, vs) :: bucketAdd rest k v

/-- Embedding of `MemeIndex.Add`. -/
def MemeIndex.Add (mi : MemeIndex) (meme : FileMeme) : MemeIndex :=
  { byKeyword :=
      meme.keywords.foldl (fun m kw => bucketAdd m (normalizeKeyword kw) meme)
        mi.byKeyword
    all := mi.all ++ [meme] }

/-- Embedding of `MemeIndex.Len`. -/
def MemeIndex.Len (mi : MemeIndex) : Nat := mi.all.length

/-- Association-list insert with overwrite (Go `map[string]*FileMeme`
assignment). -/
def mapInsert (m : List (GoStr × FileMeme)) (k : GoStr) (v : FileMeme) :
    List (GoStr × FileMeme) :=
  match m with
  | [] => [(k, v)]
  | (k2, v2) :: rest =>
    if k2 = k then (k2, v) :: rest else (k2, v2) :: mapInsert rest k v

/-- Association-list lookup (Go map read). -/
def mapLookup : List (GoStr × FileMeme) → GoStr → Option FileMeme
  | [], _ => none
  | (k2, v) :: rest, k => if k2 = k then some v else mapLookup rest k

/-! ## the single-flight load -/

/-- Result of one directory scan (`FileServingMemepository.load`). -/
structure LoadResult where
  memes : Option MemeIndex
  memesById : List (GoStr × FileMeme)
  loadErr : Option GoStr
deriving DecidableEq

/-- The loop body of `FileServingMemepository.load`: non-image entries and
entries whose `newFileMeme` fails are skipped, the rest are added to the
index and to the by-id map. -/
def loadStep (cfg : Config) (fs : FS) (st : MemeIndex × List (GoStr × FileMeme))
    (entry : FileInfo) : MemeIndex × List (GoStr × FileMeme) :=
  if isImageFile cfg entry then
    match newFileMeme entry cfg fs with
    | .error _ => st
    | .ok meme => (st.1.Add meme, mapInsert st.2 meme.id meme)
  else st

/-- Embedding of `FileServingMemepository.load`: list the directory — a
listing failure is recorded in `loadErr` — then index every image file,
skipping files whose `newFileMeme` fails. -/
def loadScan (cfg : Config) (fs : FS) : LoadResult :=
  match fs.readDirEntries with
  | .error e => { memes := none, memesById := [], loadErr := some e }
  | .ok entries =>
    let st := entries.foldl (loadStep cfg fs) (NewMemeIndex, [])
    { memes := some st.1, memesById := st.2, loadErr := none }

/-- Mutable state of a `FileServingMemepository`: the `sync.Once` flag, the
cached load outcome, and an instrumentation counter of performed scans. -/
structure RepoState where
  loadFired : Bool
  scans : Nat
  memes : Option MemeIndex
  memesById : List (GoStr × FileMeme)
  loadErr : Option GoStr
deriving DecidableEq

/-- A freshly constructed repository: `load` not yet run. -/
def initialRepoState : RepoState := ⟨false, 0, none, [], none⟩

/-- `m.loadOnce.Do(m.load)`: run the scan only if it never ran. -/
def loadOnceDo (cfg : Config) (fs : FS) (s : RepoState) : RepoState :=
  if s.loadFired then s
  else
    let r := loadScan cfg fs
    { loadFired := true, scans := s.scans + 1, memes := r.memes
      memesById := r.memesById, loadErr := r.loadErr }

/-- Embedding of `FileServingMemepository.Load`: fire the once-gate, then
return the cached `(memes, loadErr)`. -/
def Load (cfg : Config) (fs : FS) (s : RepoState) : RepoState × Option MemeIndex × Option GoStr :=
  let s2 := loadOnceDo cfg fs s
  (s2, s2.memes, s2.loadErr)

/-- State after `n` successive `Load` calls. -/
def loadIter (cfg : Config) (fs : FS) (s : RepoState) : Nat → RepoState
  | 0 => s
  | n + 1 => (Load cfg fs (loadIter cfg fs s n)).1

/-- Embedding of `FileServingMemepository.FindObject`: a failed load makes
every id unresolvable; otherwise look the id up in `memesById`. -/
def FindObject (cfg : Config) (fs : FS) (s : RepoState) (id : GoStr) :
    RepoState × Option FileMeme × Bool :=
  let L := Load cfg fs s
  match L.2.2 with
  | some _ => (L.1, none, false)
  | none =>
    match mapLookup L.1.memesById id with
    | some meme => (L.1, some meme, true)
    | none => (L.1, none, false)

/-! ## object_server.go -/

/-- Status outcome of the object-serving HTTP handler. -/
inductive HttpStatus where
  | success
  | badRequest
  | notFound
  | internalError
deriving DecidableEq

/-- Embedding of the handler installed by `CreateObjectServer`: empty id →
400; unknown id → 404; open failure → 500; otherwise serve the content. -/
def serveObject (cfg : Config) (fs : FS) (s : RepoState) (id : GoStr) : HttpStatus :=
  if id = [] then .badRequest
  else
    match (FindObject cfg fs s id).2 with
    | (_, false) => .notFound
    | (none, true) => .internalError
    | (some meme, true) =>
      match fs.openFile meme.path with
      | .error _ => .internalError
      | .ok _ => .success

/-! ## memebot.go: handleMessage -/

/-- A meme as the bot layer sees it: only its URL matters here. -/
structure MemeM where
  url : GoStr
deriving DecidableEq

/-- Outcome of `MemeSearcher.FindMeme`. -/
inductive SearchResult where
  | found (m : MemeM)
  | noMemeFound
  | searchError (e : GoStr)
deriving DecidableEq

/-- The `ErrorHandler` strategy interface. -/
structure ErrorHandlerM where
  onNoMemeFound : GoStr → GoStr
  onPhraseNotUnderstood : GoStr → GoStr → GoStr
  onHelp : GoStr → GoStr

/-- `MemeBotConfig` restricted to what `handleMessage` reads; the keyword
parser, sample generator and searcher are oracles. -/
structure MemeBotConfigM where
  keywordParse : GoStr → GoStr × Bool
  errorHandler : ErrorHandlerM
  parseAllMessages : Bool
  searcher : GoStr → SearchResult
  sample : GoStr

/-- Embedding of the free function `handleMessage`: the returned string is
the reply, the empty string meaning "no reply" (the caller only sends
non-empty replies). -/
def handleMessage (selfName selfId : GoStr) (config : MemeBotConfigM) (text : GoStr) : GoStr :=
  let P := ParseMessage config.keywordParse selfName selfId text
  let keyword := P.1
  let mentioned := P.2.1
  let help := P.2.2
  if !mentioned && !config.parseAllMessages then []
  else if help then config.errorHandler.onHelp config.sample
  else if keyword = [] then
    if mentioned then config.errorHandler.onPhraseNotUnderstood text config.sample
    else []
  else
    match config.searcher keyword with
    | .noMemeFound => if mentioned then config.errorHandler.onNoMemeFound keyword else []
    | .searchError _ => if mentioned then config.errorHandler.onNoMemeFound keyword else []
    | .found meme => meme.url

/-! ## specification-side descriptions and concrete fixtures -/

/-- Specification-side description of the item a directory entry
contributes to the index: `none` for non-image entries and for entries
whose open/hash fails, otherwise the created meme. -/
def goodMeme (cfg : Config) (fs : FS) (entry : FileInfo) : Option FileMeme :=
  if isImageFile cfg entry then (newFileMeme entry cfg fs).toOption else none

/-- Fixture: two regular files with different extensions and identical
byte content (every open yields the single byte `0x78`). -/
def c2fs : FS :=
  { readDirEntries := .ok [⟨"a.jpg".toList, 0, 1, true⟩, ⟨"b.png".toList, 0, 1, true⟩]
    openFile := fun _ => .ok [120] }

/-- Fixture: repository config recognising `jpg` and `png`. -/
def c2cfg : Config := ⟨"imgs".toList, ["jpg".toList, "png".toList]⟩

/-- Fixture: a trivially loadable filesystem (empty directory). -/
def fsEmpty : FS := ⟨.ok [], fun _ => .ok []⟩

/-- Fixture: an empty repository config. -/
def cfgEmpty : Config := ⟨[], []⟩

/-- Fixture: a filesystem whose directory listing fails. -/
def fsFail : FS := ⟨.error "nodir".toList, fun _ => .error "closed".toList⟩

/-- Fixture: one good image, one image whose open fails, one non-image. -/
def c8entries : List FileInfo :=
  [⟨"a.jpg".toList, 0, 1, true⟩, ⟨"bad.jpg".toList, 0, 1, true⟩,
    ⟨"x.txt".toList, 0, 1, true⟩]

/-- Fixture: a directory whose listing succeeds but where opening
`bad.jpg` fails. -/
def c8fs : FS :=
  { readDirEntries := .ok c8entries
    openFile := fun p => if p = "imgs/bad.jpg".toList then .error "boom".toList else .ok [120] }

/-- Fixture: config for the `c8fs` directory. -/
def c8cfg : Config := ⟨"imgs".toList, ["jpg".toList]⟩

/-- Fixture: a bot configuration with `ParseAllMessages = false` and
inert collaborators. -/
def c6cfg : MemeBotConfigM :=
  { keywordParse := fun _ => ("kw".toList, true)
    errorHandler :=
      { onNoMemeFound := fun _ => "notfound".toList
        onPhraseNotUnderstood := fun _ _ => "what".toList
        onHelp := fun _ => "helptext".toList }
    parseAllMessages := false
    searcher := fun _ => .noMemeFound
    sample := "do x".toList }

/-! ## helper lemmas -/

theorem isPrefixOf_append_self (l t : GoStr) : l.isPrefixOf (l ++ t) = true := by
  rw [List.isPrefixOf_iff_prefix]
  exact List.prefix_append l t

theorem hasPrefixGo_append_self (l t : GoStr) : hasPrefixGo (l ++ t) l = true :=
  isPrefixOf_append_self l t

theorem trimPrefixGo_append_self (l t : GoStr) : trimPrefixGo (l ++ t) l = t := by
  unfold trimPrefixGo
  rw [hasPrefixGo_append_self]
  simp [List.drop_left]

theorem trimSpaceGo_cons_space (rest : GoStr) :
    trimSpaceGo (' ' :: rest) = trimSpaceGo rest := by
  unfold trimSpaceGo
  have h : isSpaceGo ' ' = true := by decide
  simp [List.dropWhile_cons, h]

theorem parseMentionWith_self_append (name t : GoStr) :
    parseMentionWith name (name ++ t) =
      (match t.findIdx? isSpaceGo with
       | none => some t
       | some i => some (trimSpaceGo (t.drop i))) := by
  unfold parseMentionWith
  simp only [hasPrefixGo_append_self, trimPrefixGo_append_self, if_true]

/-! ## claim theorems -/

/-- Claim C1: the claim states that keywords are obtained by stripping the
extension, splitting on `,`, trimming whitespace, and discarding empty
segments.  The code (`parseKeywords`) only strips the extension and splits:
on the repository's own test input `"foo bar, foobar ,  ,,.jpg"` it keeps
the surrounding whitespace and the empty segments, contradicting the
repository's `TestParseKeywords` (which expects `["foo bar", "foobar"]`). -/
theorem c1_parseKeywords_no_trim :
    parseKeywords "foo bar, foobar ,  ,,.jpg".toList =
      ["foo bar".toList, " foobar ".toList, "  ".toList, [], []] := by
  decide

/-- Claim C4: `ParseKeyword`, given the submatch list delivered by the
regexp engine for a matching pattern with at least one capture group
(full match first, then the groups), returns the first non-empty capture
group with `true`, or `("", false)` when every group is empty; and on a
non-matching pattern (empty submatch list) it returns `("", false)`. -/
theorem c4_parseKeyword_first_nonempty_group (full : GoStr) (groups : List GoStr)
    (hg : groups ≠ []) :
    ParseKeyword (full :: groups) =
      (match groups.find? (fun m => m ≠ []) with
       | some g => (g, true)
       | none => ([], false)) ∧
    ParseKeyword [] = ([], false) := by
  constructor
  · unfold ParseKeyword
    cases groups with
    | nil => exact absurd rfl hg
    | cons g gs => simp
  · rfl

/-- Witness for C4 at the repository's own test pattern `a (\w+) (b)` on
`"a hello b"`: submatches `["a hello b", "hello", "b"]` yield
`("hello", true)`. -/
theorem c4_witness :
    (["hello".toList, "b".toList] : List GoStr) ≠ [] ∧
    ParseKeyword ["a hello b".toList, "hello".toList, "b".toList] =
      ("hello".toList, true) := by
  refine ⟨by decide, ?_⟩
  have h := c4_parseKeyword_first_nonempty_group "a hello b".toList
    ["hello".toList, "b".toList] (by decide)
  rw [h.1]
  decide

/-- Claim C7: for any bot display name, a message consisting of the name,
a space and a rest parses as a mention with the whitespace-trimmed rest;
the name alone parses as a mention with empty remainder. -/
theorem c7_parseMention_name_space_rest (name userId rest : GoStr) :
    ParseMention name userId (name ++ ' ' :: rest) = (trimSpaceGo rest, true) ∧
    ParseMention name userId name = ([], true) := by
  constructor
  · unfold ParseMention
    rw [parseMentionWith_self_append]
    have h0 : (' ' :: rest).findIdx? isSpaceGo = some 0 := by
      rw [List.findIdx?_cons]
      simp [show isSpaceGo ' ' = true from by decide]
    rw [h0]
    simp [trimSpaceGo_cons_space]
  · unfold ParseMention
    have h : parseMentionWith name name =
        (match ([] : GoStr).findIdx? isSpaceGo with
         | none => some []
         | some i => some (trimSpaceGo (([] : GoStr).drop i))) := by
      have := parseMentionWith_self_append name []
      simpa using this
    rw [h]
    rfl

/-- Claim C9 counterexample: for the message `"name:"` (display name with a
glued colon and no whitespace), `ParseMention` does not return `("", true)`
as claimed: it returns the glued remainder `(":", true)`. -/
theorem c9_counterexample :
    ParseMention "name".toList "id".toList "name:".toList = (":".toList, true) ∧
    ":".toList ≠ ([] : GoStr) := by
  decide

/-- Claim C9 as amended: for a text that is the bot display name followed
by one or more non-whitespace characters, `ParseMention` reports the
mention but returns the glued characters unchanged as the clean message
(they are not discarded): `(junk, true)`. -/
theorem c9_amended_glued_junk_kept (name userId junk : GoStr) (_hne : junk ≠ [])
    (hns : ∀ c ∈ junk, isSpaceGo c = false) :
    ParseMention name userId (name ++ junk) = (junk, true) := by
  unfold ParseMention
  rw [parseMentionWith_self_append]
  rw [List.findIdx?_eq_none_iff.mpr hns]

/-- Witness for the amended C9 at `name = "name"`, `junk = ":"`. -/
theorem c9_amended_witness :
    (":".toList : GoStr) ≠ [] ∧ (∀ c ∈ (":".toList : GoStr), isSpaceGo c = false) ∧
    ParseMention "name".toList "id".toList ("name".toList ++ ":".toList) =
      (":".toList, true) :=
  ⟨by decide, by decide,
    c9_amended_glued_junk_kept "name".toList "id".toList ":".toList
      (by decide) (by decide)⟩

theorem parseMessage_mentioned (kwParse : GoStr → GoStr × Bool) (name userId msg : GoStr) :
    (ParseMessage kwParse name userId msg).2.1 = (ParseMention name userId msg).2 := by
  unfold ParseMessage
  rcases hPM : ParseMention name userId msg with ⟨clean, mentioned⟩
  rcases hkw : kwParse clean with ⟨kw, b⟩
  cases hDH : DefaultHelpParser clean <;> cases mentioned <;> cases b <;>
    simp [hDH, hkw]

/-- Claim C5: with the default help parser, `ParseMessage` reports
`help = true` (and an empty keyword) exactly when the mention was detected
and the cleaned remainder lowercases to the literal `"help"`; whenever the
bot is not mentioned, `help` is `false`. -/
theorem c5_parseMessage_help_iff (kwParse : GoStr → GoStr × Bool) (name userId msg : GoStr) :
    ((ParseMessage kwParse name userId msg).2.2 = true ↔
      (ParseMention name userId msg).2 = true ∧
      toLowerGo (ParseMention name userId msg).1 = "help".toList) ∧
    ((ParseMessage kwParse name userId msg).2.2 = true →
      (ParseMessage kwParse name userId msg).1 = []) ∧
    ((ParseMention name userId msg).2 = false →
      (ParseMessage kwParse name userId msg).2.2 = false) := by
  unfold ParseMessage
  rcases hPM : ParseMention name userId msg with ⟨clean, mentioned⟩
  rcases hkw : kwParse clean with ⟨kw, b⟩
  have hlit : ("help".toList : GoStr) = ['h', 'e', 'l', 'p'] := rfl
  rw [hlit]
  by_cases hh : toLowerGo clean = ['h', 'e', 'l', 'p'] <;> cases mentioned <;> cases b <;>
    simp [DefaultHelpParser, hlit, hh, hkw]

/-- Claim C6: when the bot is not mentioned and `ParseAllMessages` is
false, `handleMessage` produces no reply (the empty string, which the
caller never sends), whatever the keyword parser, searcher or error
handler would have produced. -/
theorem c6_not_mentioned_no_reply (selfName selfId : GoStr) (config : MemeBotConfigM)
    (text : GoStr) (hm : (ParseMention selfName selfId text).2 = false)
    (hp : config.parseAllMessages = false) :
    handleMessage selfName selfId config text = [] := by
  unfold handleMessage
  have hmen := parseMessage_mentioned config.keywordParse selfName selfId text
  rw [hm] at hmen
  simp [hmen, hp]

/-- Witness for C6: the unaddressed message `"hello"` with
`ParseAllMessages = false` yields no reply. -/
theorem c6_witness :
    (ParseMention "name".toList "id".toList "hello".toList).2 = false ∧
    c6cfg.parseAllMessages = false ∧
    handleMessage "name".toList "id".toList c6cfg "hello".toList = [] :=
  ⟨by decide, rfl,
    c6_not_mentioned_no_reply "name".toList "id".toList c6cfg "hello".toList
      (by decide) rfl⟩

theorem loadOnceDo_fired_eq (cfg : Config) (fs : FS) (s : RepoState)
    (h : s.loadFired = true) : loadOnceDo cfg fs s = s := by
  simp [loadOnceDo, h]

theorem loadOnceDo_loadFired (cfg : Config) (fs : FS) (s : RepoState) :
    (loadOnceDo cfg fs s).loadFired = true := by
  by_cases h : s.loadFired = true <;> simp [loadOnceDo, h]

theorem load_fst_of_fired (cfg : Config) (fs : FS) (s : RepoState)
    (h : s.loadFired = true) : Load cfg fs s = (s, s.memes, s.loadErr) := by
  simp [Load, loadOnceDo_fired_eq cfg fs s h]

theorem loadIter_succ_fired (cfg : Config) (fs : FS) (n : Nat) :
    (loadIter cfg fs initialRepoState (n + 1)).loadFired = true := by
  show (Load cfg fs (loadIter cfg fs initialRepoState n)).1.loadFired = true
  simp only [Load]
  exact loadOnceDo_loadFired cfg fs _

theorem loadIter_stable (cfg : Config) (fs : FS) (n : Nat) :
    loadIter cfg fs initialRepoState (n + 1) = loadIter cfg fs initialRepoState 1 := by
  induction n with
  | zero => rfl
  | succ k ih =>
    show (Load cfg fs (loadIter cfg fs initialRepoState (k + 1))).1 =
      loadIter cfg fs initialRepoState 1
    rw [load_fst_of_fired cfg fs _ (loadIter_succ_fired cfg fs k)]
    exact ih

/-- Claim C3: from a fresh repository, any number `n ≥ 1` of `Load` calls
leaves the state of the single first call (so the scan ran exactly once:
the scan counter is 1), and any further call returns exactly the cached
pair (index, error) that the first call produced. -/
theorem c3_load_runs_once (cfg : Config) (fs : FS) (n : Nat) (h : 0 < n) :
    loadIter cfg fs initialRepoState n = loadIter cfg fs initialRepoState 1 ∧
    (loadIter cfg fs initialRepoState n).scans = 1 ∧
    (Load cfg fs (loadIter cfg fs initialRepoState n)).2 =
      (Load cfg fs initialRepoState).2 := by
  obtain ⟨m, rfl⟩ : ∃ m, n = m + 1 := ⟨n - 1, (Nat.succ_pred_eq_of_pos h).symm⟩
  refine ⟨loadIter_stable cfg fs m, ?_, ?_⟩
  · rw [loadIter_stable cfg fs m]
    rfl
  · rw [loadIter_stable cfg fs m]
    rw [load_fst_of_fired cfg fs _ (loadIter_succ_fired cfg fs 0)]
    rfl

/-- Witness for C3 with a concrete empty repository and three calls. -/
theorem c3_witness :
    0 < 3 ∧
    (loadIter cfgEmpty fsEmpty initialRepoState 3 =
        loadIter cfgEmpty fsEmpty initialRepoState 1 ∧
      (loadIter cfgEmpty fsEmpty initialRepoState 3).scans = 1 ∧
      (Load cfgEmpty fsEmpty (loadIter cfgEmpty fsEmpty initialRepoState 3)).2 =
        (Load cfgEmpty fsEmpty initialRepoState).2) :=
  ⟨by decide, c3_load_runs_once cfgEmpty fsEmpty 3 (by decide)⟩

theorem foldl_loadStep_all (cfg : Config) (fs : FS) (entries : List FileInfo)
    (st : MemeIndex × List (GoStr × FileMeme)) :
    (entries.foldl (loadStep cfg fs) st).1.all =
      st.1.all ++ entries.filterMap (goodMeme cfg fs) := by
  induction entries generalizing st with
  | nil => simp
  | cons entry rest ih =>
    rw [List.foldl_cons, ih]
    unfold loadStep goodMeme
    by_cases hImg : isImageFile cfg entry
    · rcases hNF : newFileMeme entry cfg fs with err | meme <;>
        simp [hImg, hNF, MemeIndex.Add, List.filterMap_cons, Except.toOption]
    · simp [hImg, List.filterMap_cons]

/-- Claim C8: the load records an error exactly when the directory listing
fails (and then no index is built); when the listing succeeds, the load
never fails and the resulting index holds exactly the image files whose
open/hash succeeded — a failing file is omitted, all other eligible files
are still indexed. -/
theorem c8_load_error_exactly_dir_failure (cfg : Config) (fs : FS) :
    (∀ e, (loadScan cfg fs).loadErr = some e ↔ fs.readDirEntries = .error e) ∧
    (∀ entries, fs.readDirEntries = .ok entries →
      (loadScan cfg fs).loadErr = none ∧
      (loadScan cfg fs).memes.map MemeIndex.all =
        some (entries.filterMap (goodMeme cfg fs))) := by
  rcases hDir : fs.readDirEntries with e | entries
  · refine ⟨fun e2 => ?_, fun ents h => ?_⟩
    · simp [loadScan, hDir]
    · exact absurd h (by simp)
  · refine ⟨fun e2 => ?_, fun ents h => ?_⟩
    · simp [loadScan, hDir]
    · injection h with h
      subst h
      refine ⟨by simp [loadScan, hDir], ?_⟩
      simp [loadScan, hDir, foldl_loadStep_all, NewMemeIndex]

/-- Witness for C8 on a concrete directory where `bad.jpg` fails to open:
the load succeeds and indexes exactly the surviving files. -/
theorem c8_witness :
    c8fs.readDirEntries = Except.ok c8entries ∧
    (loadScan c8cfg c8fs).loadErr = none ∧
    (loadScan c8cfg c8fs).memes.map MemeIndex.all =
      some (c8entries.filterMap (goodMeme c8cfg c8fs)) :=
  ⟨rfl, ((c8_load_error_exactly_dir_failure c8cfg c8fs).2 c8entries rfl).1,
    ((c8_load_error_exactly_dir_failure c8cfg c8fs).2 c8entries rfl).2⟩

set_option maxRecDepth 100000 in
/-- Claim C2 counterexample: two files processed by the repository load
with byte-identical content (`c2fs` serves the same single byte for every
open) receive different `id`s, because the id appends the file's own
normalized extension to the hash: `….jpg` versus `….png`. -/
theorem c2_counterexample :
    c2fs.openFile "imgs/a.jpg".toList = Except.ok [120] ∧
    c2fs.openFile "imgs/b.png".toList = Except.ok [120] ∧
    (loadScan c2cfg c2fs).memes.map (fun mi => mi.all.map FileMeme.id) =
      some ["EfatjsUqKYSrqv18O1FlA3hcIHI=.jpg".toList,
        "EfatjsUqKYSrqv18O1FlA3hcIHI=.png".toList] ∧
    "EfatjsUqKYSrqv18O1FlA3hcIHI=.jpg".toList ≠
      "EfatjsUqKYSrqv18O1FlA3hcIHI=.png".toList := by
  refine ⟨rfl, rfl, ?_, by decide⟩
  decide

/-- Claim C2 as amended: two files whose byte contents are identical AND
whose normalized extensions agree receive the same `id` (the id is the
content hash plus the extension, so only the extension can distinguish
identical contents). -/
theorem c2_amended_same_content_same_ext (f1 f2 : FileInfo) (cfg : Config)
    (fs : FS) (b : List Nat)
    (h1 : fs.openFile (filepathJoin cfg.path f1.name) = .ok b)
    (h2 : fs.openFile (filepathJoin cfg.path f2.name) = .ok b)
    (hext : getNormalizedExtensionWithoutDot f1.name =
      getNormalizedExtensionWithoutDot f2.name) :
    (newFileMeme f1 cfg fs).map FileMeme.id =
      (newFileMeme f2 cfg fs).map FileMeme.id := by
  simp only [newFileMeme, generateHashForFile]
  rw [h1, h2]
  simp [hext, Except.map]

/-- Witness for the amended C2: `a.jpg` and `c.jpg` with identical content
and the same extension receive the same id. -/
theorem c2_amended_witness :
    c2fs.openFile (filepathJoin c2cfg.path "a.jpg".toList) = Except.ok [120] ∧
    c2fs.openFile (filepathJoin c2cfg.path "c.jpg".toList) = Except.ok [120] ∧
    getNormalizedExtensionWithoutDot "a.jpg".toList =
      getNormalizedExtensionWithoutDot "c.jpg".toList ∧
    (newFileMeme ⟨"a.jpg".toList, 0, 1, true⟩ c2cfg c2fs).map FileMeme.id =
      (newFileMeme ⟨"c.jpg".toList, 0, 1, true⟩ c2cfg c2fs).map FileMeme.id :=
  ⟨rfl, rfl, rfl,
    c2_amended_same_content_same_ext ⟨"a.jpg".toList, 0, 1, true⟩
      ⟨"c.jpg".toList, 0, 1, true⟩ c2cfg c2fs [120] rfl rfl rfl⟩

/-- Claim C10: whenever the repository load observed an error, `FindObject`
answers `(nil, false)` for every id, and the HTTP handler's response is
exactly the one of an empty, successfully loaded repository — 404 for
every non-empty id — so the load error never crosses the HTTP boundary. -/
theorem c10_load_error_hidden (cfg : Config) (fs : FS) (s : RepoState)
    (id : GoStr) (e : GoStr) (hl : (Load cfg fs s).2.2 = some e) :
    (FindObject cfg fs s id).2 = (none, false) ∧
    (id ≠ [] → serveObject cfg fs s id = HttpStatus.notFound) ∧
    serveObject cfg fs s id = serveObject cfgEmpty fsEmpty initialRepoState id := by
  have hFO : (FindObject cfg fs s id).2 = (none, false) := by
    simp only [FindObject]
    rw [hl]
  have hFO2 : (FindObject cfgEmpty fsEmpty initialRepoState id).2 = (none, false) := by
    simp [FindObject, Load, loadOnceDo, initialRepoState, loadScan, fsEmpty,
      cfgEmpty, mapLookup]
  refine ⟨hFO, ?_, ?_⟩
  · intro hid
    unfold serveObject
    rw [if_neg hid, hFO]
  · unfold serveObject
    by_cases hid : id = ([] : GoStr)
    · rw [if_pos hid, if_pos hid]
    · rw [if_neg hid, if_neg hid, hFO, hFO2]

/-- Witness for C10: a repository whose directory listing fails answers
`(none, false)` and 404 for the id `"abc"`. -/
theorem c10_witness :
    (Load cfgEmpty fsFail initialRepoState).2.2 = some "nodir".toList ∧
    ((FindObject cfgEmpty fsFail initialRepoState "abc".toList).2 = (none, false) ∧
      ("abc".toList ≠ ([] : GoStr) →
        serveObject cfgEmpty fsFail initialRepoState "abc".toList =
          HttpStatus.notFound) ∧
      serveObject cfgEmpty fsFail initialRepoState "abc".toList =
        serveObject cfgEmpty fsEmpty initialRepoState "abc".toList) :=
  ⟨rfl, c10_load_error_hidden cfgEmpty fsFail initialRepoState "abc".toList
    "nodir".toList rfl⟩

end Memebot
